import Mathlib

/-!
# Verification of the cloudconvert webhook-verification core

This file gives a shallow embedding, in Lean 4, of the webhook event
verification pipeline of the `cloudconvert` Rust crate (`src/webhook.rs`,
with the data model of `src/job.rs`, `src/task.rs` and the `Status` enum of
`src/lib.rs`), together with models of the external collaborators the code
uses: the `hex` crate's `decode_to_slice`, HMAC-SHA256 (the `hmac` crate
instantiated at `sha2::Sha256`), and `serde_json` deserialization of the
event shape.

Bytes are modelled as `Nat` values (< 256 wherever the code guarantees it);
byte strings as `List Nat`.  Machine `u32` arithmetic inside SHA-256 is `Nat`
arithmetic reduced modulo `2 ^ 32`.  Panics (`unwrap`, `assert_eq!`) are
modelled by an `Option` layer: `none` is a panic, `some r` a normal return.
-/

set_option maxRecDepth 100000

/-- The byte string (UTF-8 code units) of an ASCII string literal. -/
def strBytes (s : String) : List Nat := s.data.map Char.toNat

/-! ## SHA-256 (FIPS 180-4), the model of `sha2::Sha256` -/

/-- Truncate to a 32-bit word, the `u32` wrap-around of the Rust code. -/
def w32 (n : Nat) : Nat := n % 4294967296

/-- Right rotation of a 32-bit word. -/
def rotr (n x : Nat) : Nat := w32 ((x >>> n) ||| (x <<< (32 - n)))

/-- SHA-256 `Ch` function. -/
def shaCh (e f g : Nat) : Nat := (e &&& f) ^^^ ((e ^^^ 4294967295) &&& g)

/-- SHA-256 `Maj` function. -/
def shaMaj (a b c : Nat) : Nat := (a &&& b) ^^^ (a &&& c) ^^^ (b &&& c)

/-- SHA-256 big sigma 0. -/
def bsig0 (x : Nat) : Nat := rotr 2 x ^^^ rotr 13 x ^^^ rotr 22 x

/-- SHA-256 big sigma 1. -/
def bsig1 (x : Nat) : Nat := rotr 6 x ^^^ rotr 11 x ^^^ rotr 25 x

/-- SHA-256 small sigma 0. -/
def ssig0 (x : Nat) : Nat := rotr 7 x ^^^ rotr 18 x ^^^ (x >>> 3)

/-- SHA-256 small sigma 1. -/
def ssig1 (x : Nat) : Nat := rotr 17 x ^^^ rotr 19 x ^^^ (x >>> 10)

/-- The 64 SHA-256 round constants of FIPS 180-4 (in decimal; the first is
0x428a2f98, the last 0xc67178f2). -/
def sha256K : List Nat :=
  [1116352408, 1899447441, 3049323471, 3921009573, 961987163, 1508970993,
   2453635748, 2870763221, 3624381080, 310598401, 607225278, 1426881987,
   1925078388, 2162078206, 2614888103, 3248222580, 3835390401, 4022224774,
   264347078, 604807628, 770255983, 1249150122, 1555081692, 1996064986,
   2554220882, 2821834349, 2952996808, 3210313671, 3336571891, 3584528711,
   113926993, 338241895, 666307205, 773529912, 1294757372, 1396182291,
   1695183700, 1986661051, 2177026350, 2456956037, 2730485921, 2820302411,
   3259730800, 3345764771, 3516065817, 3600352804, 4094571909, 275423344,
   430227734, 506948616, 659060556, 883997877, 958139571, 1322822218,
   1537002063, 1747873779, 1955562222, 2024104815, 2227730452, 2361852424,
   2428436474, 2756734187, 3204031479, 3329325298]

/-- Big-endian conversion of a byte list into 32-bit words, 4 bytes a word. -/
def bytesToWords : List Nat → List Nat
  | a :: b :: c :: d :: rest => (((a * 256 + b) * 256 + c) * 256 + d) :: bytesToWords rest
  | _ => []

/-- SHA-256 message padding: a `0x80` byte, zeros, then the bit length as a
big-endian 64-bit integer, padding the message to a multiple of 64 bytes. -/
def sha256pad (msg : List Nat) : List Nat :=
  let len := msg.length
  let bitlen := len * 8
  msg ++ 128 :: List.replicate ((119 - len % 64) % 64) 0 ++
    [bitlen / 72057594037927936 % 256, bitlen / 281474976710656 % 256,
     bitlen / 1099511627776 % 256, bitlen / 4294967296 % 256,
     bitlen / 16777216 % 256, bitlen / 65536 % 256,
     bitlen / 256 % 256, bitlen % 256]

/-- Extend the 16 words of a block to the 64-word message schedule.
The first argument is fuel (48 at the top call). -/
def sha256ext : Nat → List Nat → List Nat
  | 0, ws => ws
  | n + 1, ws =>
    let i := ws.length
    let w := w32 (ssig1 (ws.getD (i - 2) 0) + ws.getD (i - 7) 0 +
                  ssig0 (ws.getD (i - 15) 0) + ws.getD (i - 16) 0)
    sha256ext n (ws ++ [w])

/-- One round of the SHA-256 compression loop over paired round constants
and schedule words. -/
def sha256rounds :
    List Nat → List Nat → Nat × Nat × Nat × Nat × Nat × Nat × Nat × Nat →
    Nat × Nat × Nat × Nat × Nat × Nat × Nat × Nat
  | k :: ks, w :: ws, (a, b, c, d, e, f, g, h) =>
    let t1 := w32 (h + bsig1 e + shaCh e f g + k + w)
    let t2 := w32 (bsig0 a + shaMaj a b c)
    sha256rounds ks ws (w32 (t1 + t2), a, b, c, w32 (d + t1), e, f, g)
  | _, _, st => st

/-- The SHA-256 compression function on one 64-byte block. -/
def sha256compress (st : Nat × Nat × Nat × Nat × Nat × Nat × Nat × Nat)
    (block : List Nat) : Nat × Nat × Nat × Nat × Nat × Nat × Nat × Nat :=
  let ws := sha256ext 48 (bytesToWords block)
  match st, sha256rounds sha256K ws st with
  | (a, b, c, d, e, f, g, h), (a1, b1, c1, d1, e1, f1, g1, h1) =>
    (w32 (a + a1), w32 (b + b1), w32 (c + c1), w32 (d + d1),
     w32 (e + e1), w32 (f + f1), w32 (g + g1), w32 (h + h1))

/-- Fold the compression function over the 64-byte blocks of the padded
message; the first argument is the block count, acting as fuel. -/
def sha256blocks :
    Nat → List Nat → Nat × Nat × Nat × Nat × Nat × Nat × Nat × Nat →
    Nat × Nat × Nat × Nat × Nat × Nat × Nat × Nat
  | 0, _, st => st
  | n + 1, msg, st => sha256blocks n (msg.drop 64) (sha256compress st (msg.take 64))

/-- The 4 big-endian bytes of a 32-bit word. -/
def wordBytes (w : Nat) : List Nat :=
  [w / 16777216 % 256, w / 65536 % 256, w / 256 % 256, w % 256]

/-- SHA-256 of a byte string: 32 digest bytes. -/
def sha256 (msg : List Nat) : List Nat :=
  let padded := sha256pad msg
  let st := sha256blocks (padded.length / 64) padded
      (1779033703, 3144134277, 1013904242, 2773480762,
       1359893119, 2600822924, 528734635, 1541459225)
  wordBytes st.1 ++ wordBytes st.2.1 ++ wordBytes st.2.2.1 ++ wordBytes st.2.2.2.1 ++
  wordBytes st.2.2.2.2.1 ++ wordBytes st.2.2.2.2.2.1 ++
  wordBytes st.2.2.2.2.2.2.1 ++ wordBytes st.2.2.2.2.2.2.2

/-- FIPS 180-4 test vector: SHA-256 of `"abc"` (digest bytes in decimal;
the hex reading is ba7816bf...f20015ad). -/
example : sha256 (strBytes "abc") =
    [186, 120, 22, 191, 143, 1, 207, 234, 65, 65, 64, 222, 93, 174, 34, 35,
     176, 3, 97, 163, 150, 23, 122, 156, 180, 16, 255, 97, 242, 0, 21, 173] := by decide

/-! ## HMAC-SHA256, the model of `hmac::Hmac<sha2::Sha256>`

`Hmac::<Sha256>::new_from_slice` (the `hmac` crate) accepts a key of any
length: a key longer than the 64-byte SHA-256 block is first hashed, a
shorter one is zero-padded, and the constructor always returns `Ok`.  The
`InvalidLength` error exists only in the `KeyInit` trait signature; the HMAC
implementation never produces it.  We model the constructor faithfully as an
`Except` that is always `.ok`, holding the processed 64-byte key block. -/

/-- The `crypto_common::InvalidLength` error type (never produced by HMAC). -/
inductive InvalidLength
  | invalidLength

/-- The state built by `Hmac::<Sha256>::new_from_slice`: the processed
64-byte key block (long keys hashed, short keys zero-padded). -/
def hmacKeyBlock (key : List Nat) : List Nat :=
  let k0 := if 64 < key.length then sha256 key else key
  k0 ++ List.replicate (64 - k0.length) 0

/-- Model of `Hmac::<Sha256>::new_from_slice`: always `Ok`, whatever the key length. -/
def hmacNewFromSlice (key : List Nat) : Except InvalidLength (List Nat) :=
  .ok (hmacKeyBlock key)

/-- Finish an HMAC-SHA256 computation from the processed key block and the
message fed by `update`: `H((K0 xor opad) || H((K0 xor ipad) || msg))`. -/
def hmacFinalize (keyBlock msg : List Nat) : List Nat :=
  sha256 (keyBlock.map (· ^^^ 92) ++ sha256 (keyBlock.map (· ^^^ 54) ++ msg))

/-- HMAC-SHA256 of a message under a key of arbitrary length. -/
def hmacSha256 (key msg : List Nat) : List Nat :=
  hmacFinalize (hmacKeyBlock key) msg

/-- RFC 4231 test case 1: key = 20 bytes of `0x0b`, data = `"Hi There"`
(tag bytes in decimal; the hex reading is b0344c61...2e32cff7). -/
example : hmacSha256 (List.replicate 20 11) (strBytes "Hi There") =
    [176, 52, 76, 97, 216, 219, 56, 83, 92, 168, 175, 206, 175, 11, 241, 43,
     136, 29, 194, 0, 201, 131, 61, 167, 38, 233, 55, 108, 46, 50, 207, 247] := by decide

/-! ## The `hex` crate: `decode_to_slice` and `encode`

`hex::decode_to_slice(data, out)` first rejects odd-length input
(`OddLength`), then input whose length is not twice the output buffer's
(`InvalidStringLength`), then decodes pairs of hex digits left to right,
rejecting the first non-digit (`InvalidHexCharacter`, which carries the
offending character and its index; we store the character as its code
point).  Both upper- and lower-case digits are accepted.  `hex::encode`
produces lower-case digits. -/

/-- The `hex::FromHexError` type. -/
inductive FromHexError
  | InvalidHexCharacter (c : Nat) (index : Nat)
  | OddLength
  | InvalidStringLength
deriving DecidableEq

/-- The `hex` crate's `val`: the value of one hex digit character, or an
`InvalidHexCharacter` error carrying the character and its index. -/
def hexVal (c : Nat) (idx : Nat) : Except FromHexError Nat :=
  if 65 ≤ c ∧ c ≤ 70 then .ok (c - 65 + 10)
  else if 97 ≤ c ∧ c ≤ 102 then .ok (c - 97 + 10)
  else if 48 ≤ c ∧ c ≤ 57 then .ok (c - 48)
  else .error (.InvalidHexCharacter c idx)

/-- The digit-pair loop of `decode_to_slice`, on input of even length. -/
def hexPairs : List Nat → Nat → Except FromHexError (List Nat)
  | [], _ => .ok []
  | [c], idx => .error (.InvalidHexCharacter c idx)
  | hi :: lo :: rest, idx =>
    match hexVal hi idx with
    | .error e => .error e
    | .ok h =>
      match hexVal lo (idx + 1) with
      | .error e => .error e
      | .ok l =>
        match hexPairs rest (idx + 2) with
        | .error e => .error e
        | .ok bs => .ok ((h * 16 + l) :: bs)

/-- Model of `hex::decode_to_slice` into a buffer of `outLen` bytes, returning the
decoded bytes instead of mutating a buffer. -/
def hexDecodeToSlice (data : List Nat) (outLen : Nat) : Except FromHexError (List Nat) :=
  if data.length % 2 ≠ 0 then .error .OddLength
  else if data.length / 2 ≠ outLen then .error .InvalidStringLength
  else hexPairs data 0

/-- The lower-case hex digit character for a nibble. -/
def hexDigitLower (n : Nat) : Nat := if n < 10 then 48 + n else 87 + n

/-- Model of `hex::encode`: two lower-case digits per byte. -/
def hexEncode : List Nat → List Nat
  | [] => []
  | b :: bs => hexDigitLower (b / 16 % 16) :: hexDigitLower (b % 16) :: hexEncode bs

example : hexDecodeToSlice (strBytes "00ff10Ab") 4 = .ok [0, 255, 16, 171] := rfl
example : hexDecodeToSlice (strBytes "0f1") 2 = .error .OddLength := rfl
example : hexDecodeToSlice (strBytes "0f10") 3 = .error .InvalidStringLength := rfl
example : hexDecodeToSlice (strBytes "0z10") 2 =
    .error (.InvalidHexCharacter 122 1) := rfl
example : hexEncode [0, 255, 16, 171] = strBytes "00ff10ab" := by decide

/-! ## JSON values and the model of the `serde_json` text parser

`serde_json::from_slice` both parses the JSON text and decodes it into the
target type in one streaming pass.  We model it in two stages: a syntactic
parse into a `Json` tree, then a typed decode following the `serde` derive
semantics of the target structs.  The two-stage model agrees with the
streaming decoder on which inputs succeed and on the decoded values; when an
input has several independent problems the reported *cause* may differ, and
no claim distinguishes causes beyond the `ParseError::Json` class.

The model covers the integer fragment of JSON numbers (no fraction or
exponent), the single-character string escapes (no `\u`), and treats
strings as raw byte sequences (the sources under verification only ever
compare them for equality). -/

/-- A parsed JSON value.  Strings are byte lists; objects keep their fields
in input order. -/
inductive Json
  | null
  | bool (b : Bool)
  | num (neg : Bool) (n : Nat)
  | str (s : List Nat)
  | arr (xs : List Json)
  | obj (fields : List (List Nat × Json))

/-- The causes a `serde_json::Error` can carry in this model. -/
inductive SerdeError
  | synErr
  | trailingData
  | invalidType
  | invalidValue
  | missingField (f : List Nat)
  | duplicateField (f : List Nat)
  | unknownVariant (v : List Nat)
deriving DecidableEq

/-- Skip JSON whitespace. -/
def skipWs : List Nat → List Nat
  | c :: rest => if c = 32 ∨ c = 9 ∨ c = 10 ∨ c = 13 then skipWs rest else c :: rest
  | [] => []

/-- The byte denoted by a single-character string escape, if any. -/
def escByte (e : Nat) : Option Nat :=
  if e = 34 then some 34 else if e = 92 then some 92
  else if e = 47 then some 47 else if e = 98 then some 8
  else if e = 102 then some 12 else if e = 110 then some 10
  else if e = 114 then some 13 else if e = 116 then some 9
  else none

/-- Parse the body of a JSON string after the opening quote, returning the
string's bytes and the rest of the input after the closing quote.  Control
characters must be escaped; `\u` escapes are outside the model. -/
def parseStrBody : List Nat → Except SerdeError (List Nat × List Nat)
  | [] => .error .synErr
  | c :: rest =>
    if c = 34 then .ok ([], rest)
    else if c = 92 then
      match rest with
      | [] => .error .synErr
      | e :: rest2 =>
        match escByte e with
        | none => .error .synErr
        | some b =>
          match parseStrBody rest2 with
          | .error err => .error err
          | .ok (s, rem) => .ok (b :: s, rem)
    else if c < 32 then .error .synErr
    else
      match parseStrBody rest with
      | .error err => .error err
      | .ok (s, rem) => .ok (c :: s, rem)

/-- Consume a run of decimal digits, accumulating their value. -/
def parseNumAux : List Nat → Nat → Nat × List Nat
  | c :: rest, acc =>
    if 48 ≤ c ∧ c ≤ 57 then parseNumAux rest (acc * 10 + (c - 48)) else (acc, c :: rest)
  | [], acc => (acc, [])

/-- Is this byte a decimal digit? -/
def isDigit (c : Nat) : Bool := 48 ≤ c ∧ c ≤ 57

mutual

/-- Parse one JSON value; the fuel bounds recursion depth and is spent at
every recursive call, so the parser is structurally recursive and reduces
inside the kernel. -/
def parseValue : Nat → List Nat → Except SerdeError (Json × List Nat)
  | 0, _ => .error .synErr
  | fuel + 1, input =>
    match skipWs input with
    | [] => .error .synErr
    | c :: rest =>
      if c = 110 then
        match rest with
        | 117 :: 108 :: 108 :: rem => .ok (.null, rem)
        | _ => .error .synErr
      else if c = 116 then
        match rest with
        | 114 :: 117 :: 101 :: rem => .ok (.bool true, rem)
        | _ => .error .synErr
      else if c = 102 then
        match rest with
        | 97 :: 108 :: 115 :: 101 :: rem => .ok (.bool false, rem)
        | _ => .error .synErr
      else if c = 34 then
        match parseStrBody rest with
        | .error err => .error err
        | .ok (s, rem) => .ok (.str s, rem)
      else if c = 91 then
        match skipWs rest with
        | 93 :: rem => .ok (.arr [], rem)
        | rest2 =>
          match parseItems fuel rest2 with
          | .error err => .error err
          | .ok (xs, rem) => .ok (.arr xs, rem)
      else if c = 123 then
        match skipWs rest with
        | 125 :: rem => .ok (.obj [], rem)
        | rest2 =>
          match parseMembers fuel rest2 with
          | .error err => .error err
          | .ok (fs, rem) => .ok (.obj fs, rem)
      else if c = 45 ∨ isDigit c then
        let body := if c = 45 then rest else c :: rest
        match body with
        | [] => .error .synErr
        | d :: _ =>
          if isDigit d then
            match parseNumAux body 0 with
            | (n, rem) =>
              match rem with
              | p :: _ =>
                if p = 46 ∨ p = 101 ∨ p = 69 then .error .synErr
                else .ok (.num (c = 45) n, rem)
              | [] => .ok (.num (c = 45) n, rem)
          else .error .synErr
      else .error .synErr

/-- Parse the elements of a non-empty JSON array up to the closing bracket. -/
def parseItems : Nat → List Nat → Except SerdeError (List Json × List Nat)
  | 0, _ => .error .synErr
  | fuel + 1, input =>
    match parseValue fuel input with
    | .error err => .error err
    | .ok (v, rem) =>
      match skipWs rem with
      | 44 :: rem2 =>
        match parseItems fuel rem2 with
        | .error err => .error err
        | .ok (xs, rem3) => .ok (v :: xs, rem3)
      | 93 :: rem2 => .ok ([v], rem2)
      | _ => .error .synErr

/-- Parse the members of a non-empty JSON object up to the closing brace. -/
def parseMembers : Nat → List Nat → Except SerdeError (List (List Nat × Json) × List Nat)
  | 0, _ => .error .synErr
  | fuel + 1, input =>
    match skipWs input with
    | 34 :: rest =>
      match parseStrBody rest with
      | .error err => .error err
      | .ok (k, rem) =>
        match skipWs rem with
        | 58 :: rem2 =>
          match parseValue fuel rem2 with
          | .error err => .error err
          | .ok (v, rem3) =>
            match skipWs rem3 with
            | 44 :: rem4 =>
              match parseMembers fuel rem4 with
              | .error err => .error err
              | .ok (fs, rem5) => .ok ((k, v) :: fs, rem5)
            | 125 :: rem4 => .ok ([(k, v)], rem4)
            | _ => .error .synErr
        | _ => .error .synErr
    | _ => .error .synErr

end

/-- Parse a complete JSON document: one value, then only whitespace. -/
def jsonParse (input : List Nat) : Except SerdeError Json :=
  match parseValue (2 * input.length + 8) input with
  | .error err => .error err
  | .ok (v, rem) =>
    match skipWs rem with
    | [] => .ok v
    | _ => .error .trailingData

example : jsonParse (strBytes "  \x7b\"a\":[1,true,null,\"x\"]\x7d ") =
    .ok (.obj [(strBytes "a", .arr [.num false 1, .bool true, .null, .str (strBytes "x")])]) := rfl
example : jsonParse (strBytes "x") = .error .synErr := rfl
example : jsonParse (strBytes "") = .error .synErr := rfl
example : jsonParse (strBytes "1 2") = .error .trailingData := rfl
example : jsonParse (strBytes "-12") = .ok (.num true 12) := rfl

/-! ## The data model: `Status` (lib.rs), `task::Status`, `Job` (job.rs)

Field and type names follow the Rust sources; `task::Status` is embedded as
`TaskStatus` (Lean cannot have both a root `Status` and a `task.Status`
whose own fields mention the root one without quoting).  Rust `String`
becomes `List Nat` (UTF-8 bytes), `HashMap` an association list, and
`serde_json::Value` the `Json` tree above. -/

/-- The `Status` enum of `src/lib.rs`: status of a job or task, with its serde
rename literals `waiting`, `processing`, `finished`, `error`. -/
inductive Status
  | Waiting
  | Processing
  | Finished
  | Error
deriving DecidableEq

/-- The serde `Deserialize` of `Status`: a closed string-to-variant map;
any other value fails to parse. -/
def Status.deserialize : Json → Except SerdeError Status
  | .str s =>
    if s = strBytes "waiting" then .ok .Waiting
    else if s = strBytes "processing" then .ok .Processing
    else if s = strBytes "finished" then .ok .Finished
    else if s = strBytes "error" then .ok .Error
    else .error (.unknownVariant s)
  | _ => .error .invalidType

/-- The `task::Status` struct of `src/task.rs` (embedded as `TaskStatus`): the status
snapshot of one task.  The `credits` field is declared in the source with
`#[serde(rename = "code")]`, the same JSON key as `error_code`. -/
structure TaskStatus where
  id : List Nat
  job_id : Option (List Nat)
  name : Option (List Nat)
  operation : List Nat
  status : Status
  status_message : Option (List Nat)
  error_code : Option (List Nat)
  credits : Option Nat
  retry_of_task_id : Option (List Nat)
  retries : List (List Nat)
  engine : Option (List Nat)
  engine_version : Option (List Nat)
  payload : Json
  result : Option (List (List Nat × Json))
  links : Option (List (List Nat × List Nat))

/-- The `Job` struct of `src/job.rs`: the status or results of a job. -/
structure Job where
  id : List Nat
  tag : Option (List Nat)
  status : Option Status
  tasks : List TaskStatus
  links : Option (List (List Nat × List Nat))

/-- The fields of the `task::Status` struct, for stating facts about its
serde schema. -/
inductive TaskStatusField
  | id
  | job_id
  | name
  | operation
  | status
  | status_message
  | error_code
  | credits
  | retry_of_task_id
  | retries
  | engine
  | engine_version
  | payload
  | result
  | links
deriving DecidableEq

/-- The JSON key each `task::Status` field is deserialized from, straight
from the source's serde attributes: `status_message` is renamed from
`message`, and **both** `error_code` and `credits` are renamed from
`code`; every other field uses its own name. -/
def TaskStatus.jsonKey : TaskStatusField → List Nat
  | .id => strBytes "id"
  | .job_id => strBytes "job_id"
  | .name => strBytes "name"
  | .operation => strBytes "operation"
  | .status => strBytes "status"
  | .status_message => strBytes "message"
  | .error_code => strBytes "code"
  | .credits => strBytes "code"
  | .retry_of_task_id => strBytes "retry_of_task_id"
  | .retries => strBytes "retries"
  | .engine => strBytes "engine"
  | .engine_version => strBytes "engine_version"
  | .payload => strBytes "payload"
  | .result => strBytes "result"
  | .links => strBytes "links"

/-! ## Typed decoding, following the `serde` derive semantics

A derived struct `Deserialize` walks the input object's fields in order:
a key matching a known field decodes its value immediately and fills that
field's slot, a second occurrence of a known key is a `duplicateField`
error, and unknown keys are ignored.  After the walk, a still-empty slot of
a `#[serde(default)]` field takes its default, and a still-empty required
field is a `missingField` error, checked in declaration order.

Because `error_code` and `credits` both declare the JSON key `"code"`, the
generated key matcher has two arms for `"code"` and the first one — the
field declared first, `error_code` — wins: every incoming `"code"` value is
routed to `error_code`, and no key at all routes to `credits`, which is
always left at its default. -/

/-- Decode a JSON string (the serde `Deserialize` of `String`). -/
def decodeString : Json → Except SerdeError (List Nat)
  | .str s => .ok s
  | _ => .error .invalidType

/-- Decode an `Option<T>`: `null` is `None`, anything else decodes as `T`. -/
def decodeOption {A : Type} (d : Json → Except SerdeError A) :
    Json → Except SerdeError (Option A)
  | .null => .ok none
  | v =>
    match d v with
    | .error err => .error err
    | .ok x => .ok (some x)

/-- Decode a `Vec<String>`. -/
def decodeStringList : Json → Except SerdeError (List (List Nat))
  | .arr xs => decodeStringListAux xs
  | _ => .error .invalidType
where
  decodeStringListAux : List Json → Except SerdeError (List (List Nat))
  | [] => .ok []
  | v :: rest =>
    match decodeString v with
    | .error err => .error err
    | .ok s =>
      match decodeStringListAux rest with
      | .error err => .error err
      | .ok ss => .ok (s :: ss)

/-- Insert into an association list, overwriting an existing binding (the
`HashMap` insert used during map deserialization: a repeated key keeps the
last value). -/
def insertKV {A : Type} : List (List Nat × A) → List Nat → A → List (List Nat × A)
  | [], k, v => [(k, v)]
  | (k0, v0) :: rest, k, v =>
    if k0 = k then (k, v) :: rest else (k0, v0) :: insertKV rest k v

/-- Decode the entries of a JSON object into map entries, one decoder per
value, inserting left to right. -/
def decodeMapEntries {A : Type} (d : Json → Except SerdeError A) :
    List (List Nat × Json) → List (List Nat × A) → Except SerdeError (List (List Nat × A))
  | [], acc => .ok acc
  | (k, v) :: rest, acc =>
    match d v with
    | .error err => .error err
    | .ok x => decodeMapEntries d rest (insertKV acc k x)

/-- Decode a `HashMap<String, String>`. -/
def decodeStringMap : Json → Except SerdeError (List (List Nat × List Nat))
  | .obj fields => decodeMapEntries decodeString fields []
  | _ => .error .invalidType

/-- Decode a `HashMap<String, serde_json::Value>`. -/
def decodeValueMap : Json → Except SerdeError (List (List Nat × Json))
  | .obj fields => decodeMapEntries (fun v => .ok v) fields []
  | _ => .error .invalidType

/-- The slots filled while walking a `task::Status` object.  There is no
slot for `credits`: its rename collides with `error_code` and serde's key
matcher never routes anything to it. -/
structure TaskSlots where
  id : Option (List Nat)
  job_id : Option (Option (List Nat))
  name : Option (Option (List Nat))
  operation : Option (List Nat)
  status : Option Status
  status_message : Option (Option (List Nat))
  error_code : Option (Option (List Nat))
  retry_of_task_id : Option (Option (List Nat))
  retries : Option (List (List Nat))
  engine : Option (Option (List Nat))
  engine_version : Option (Option (List Nat))
  payload : Option Json
  result : Option (Option (List (List Nat × Json)))
  links : Option (Option (List (List Nat × List Nat)))

/-- All slots empty. -/
def TaskSlots.empty : TaskSlots :=
  ⟨none, none, none, none, none, none, none, none, none, none, none, none, none, none⟩

/-- Walk the fields of a `task::Status` JSON object (with the serde key
matcher described above: `"message"` fills `status_message`, `"code"`
fills `error_code`, unknown keys are skipped). -/
def taskFieldLoop : List (List Nat × Json) → TaskSlots → Except SerdeError TaskSlots
  | [], s => .ok s
  | (k, v) :: rest, s =>
    if k = strBytes "id" then
      match s.id with
      | some _ => .error (.duplicateField (strBytes "id"))
      | none =>
        match decodeString v with
        | .error err => .error err
        | .ok x => taskFieldLoop rest { s with id := some x }
    else if k = strBytes "job_id" then
      match s.job_id with
      | some _ => .error (.duplicateField (strBytes "job_id"))
      | none =>
        match decodeOption decodeString v with
        | .error err => .error err
        | .ok x => taskFieldLoop rest { s with job_id := some x }
    else if k = strBytes "name" then
      match s.name with
      | some _ => .error (.duplicateField (strBytes "name"))
      | none =>
        match decodeOption decodeString v with
        | .error err => .error err
        | .ok x => taskFieldLoop rest { s with name := some x }
    else if k = strBytes "operation" then
      match s.operation with
      | some _ => .error (.duplicateField (strBytes "operation"))
      | none =>
        match decodeString v with
        | .error err => .error err
        | .ok x => taskFieldLoop rest { s with operation := some x }
    else if k = strBytes "status" then
      match s.status with
      | some _ => .error (.duplicateField (strBytes "status"))
      | none =>
        match Status.deserialize v with
        | .error err => .error err
        | .ok x => taskFieldLoop rest { s with status := some x }
    else if k = strBytes "message" then
      match s.status_message with
      | some _ => .error (.duplicateField (strBytes "message"))
      | none =>
        match decodeOption decodeString v with
        | .error err => .error err
        | .ok x => taskFieldLoop rest { s with status_message := some x }
    else if k = strBytes "code" then
      match s.error_code with
      | some _ => .error (.duplicateField (strBytes "code"))
      | none =>
        match decodeOption decodeString v with
        | .error err => .error err
        | .ok x => taskFieldLoop rest { s with error_code := some x }
    else if k = strBytes "retry_of_task_id" then
      match s.retry_of_task_id with
      | some _ => .error (.duplicateField (strBytes "retry_of_task_id"))
      | none =>
        match decodeOption decodeString v with
        | .error err => .error err
        | .ok x => taskFieldLoop rest { s with retry_of_task_id := some x }
    else if k = strBytes "retries" then
      match s.retries with
      | some _ => .error (.duplicateField (strBytes "retries"))
      | none =>
        match decodeStringList v with
        | .error err => .error err
        | .ok x => taskFieldLoop rest { s with retries := some x }
    else if k = strBytes "engine" then
      match s.engine with
      | some _ => .error (.duplicateField (strBytes "engine"))
      | none =>
        match decodeOption decodeString v with
        | .error err => .error err
        | .ok x => taskFieldLoop rest { s with engine := some x }
    else if k = strBytes "engine_version" then
      match s.engine_version with
      | some _ => .error (.duplicateField (strBytes "engine_version"))
      | none =>
        match decodeOption decodeString v with
        | .error err => .error err
        | .ok x => taskFieldLoop rest { s with engine_version := some x }
    else if k = strBytes "payload" then
      match s.payload with
      | some _ => .error (.duplicateField (strBytes "payload"))
      | none => taskFieldLoop rest { s with payload := some v }
    else if k = strBytes "result" then
      match s.result with
      | some _ => .error (.duplicateField (strBytes "result"))
      | none =>
        match decodeOption decodeValueMap v with
        | .error err => .error err
        | .ok x => taskFieldLoop rest { s with result := some x }
    else if k = strBytes "links" then
      match s.links with
      | some _ => .error (.duplicateField (strBytes "links"))
      | none =>
        match decodeOption decodeStringMap v with
        | .error err => .error err
        | .ok x => taskFieldLoop rest { s with links := some x }
    else taskFieldLoop rest s

/-- The serde `Deserialize` of `task::Status`: walk the object, then check
required fields (`id`, `operation`, `status`) in declaration order and
apply the `#[serde(default)]` defaults.  `credits` is always its default
`None` — no key routes to it. -/
def TaskStatus.deserialize : Json → Except SerdeError TaskStatus
  | .obj fields =>
    (match taskFieldLoop fields TaskSlots.empty with
     | .error err => .error err
     | .ok s =>
       match s.id with
       | none => .error (.missingField (strBytes "id"))
       | some id =>
         match s.operation with
         | none => .error (.missingField (strBytes "operation"))
         | some operation =>
           match s.status with
           | none => .error (.missingField (strBytes "status"))
           | some status =>
             .ok { id := id
                   job_id := s.job_id.getD none
                   name := s.name.getD none
                   operation := operation
                   status := status
                   status_message := s.status_message.getD none
                   error_code := s.error_code.getD none
                   credits := none
                   retry_of_task_id := s.retry_of_task_id.getD none
                   retries := s.retries.getD []
                   engine := s.engine.getD none
                   engine_version := s.engine_version.getD none
                   payload := s.payload.getD .null
                   result := s.result.getD none
                   links := s.links.getD none })
  | _ => .error .invalidType

/-- Decode a `Vec<task::Status>`. -/
def decodeTaskList : List Json → Except SerdeError (List TaskStatus)
  | [] => .ok []
  | v :: rest =>
    match TaskStatus.deserialize v with
    | .error err => .error err
    | .ok t =>
      match decodeTaskList rest with
      | .error err => .error err
      | .ok ts => .ok (t :: ts)

/-- Decode the `tasks` field. -/
def decodeTasks : Json → Except SerdeError (List TaskStatus)
  | .arr xs => decodeTaskList xs
  | _ => .error .invalidType

/-- The slots filled while walking a `Job` object. -/
structure JobSlots where
  id : Option (List Nat)
  tag : Option (Option (List Nat))
  status : Option (Option Status)
  tasks : Option (List TaskStatus)
  links : Option (Option (List (List Nat × List Nat)))

/-- All slots empty. -/
def JobSlots.empty : JobSlots := ⟨none, none, none, none, none⟩

/-- Walk the fields of a `Job` JSON object. -/
def jobFieldLoop : List (List Nat × Json) → JobSlots → Except SerdeError JobSlots
  | [], s => .ok s
  | (k, v) :: rest, s =>
    if k = strBytes "id" then
      match s.id with
      | some _ => .error (.duplicateField (strBytes "id"))
      | none =>
        match decodeString v with
        | .error err => .error err
        | .ok x => jobFieldLoop rest { s with id := some x }
    else if k = strBytes "tag" then
      match s.tag with
      | some _ => .error (.duplicateField (strBytes "tag"))
      | none =>
        match decodeOption decodeString v with
        | .error err => .error err
        | .ok x => jobFieldLoop rest { s with tag := some x }
    else if k = strBytes "status" then
      match s.status with
      | some _ => .error (.duplicateField (strBytes "status"))
      | none =>
        match decodeOption Status.deserialize v with
        | .error err => .error err
        | .ok x => jobFieldLoop rest { s with status := some x }
    else if k = strBytes "tasks" then
      match s.tasks with
      | some _ => .error (.duplicateField (strBytes "tasks"))
      | none =>
        match decodeTasks v with
        | .error err => .error err
        | .ok x => jobFieldLoop rest { s with tasks := some x }
    else if k = strBytes "links" then
      match s.links with
      | some _ => .error (.duplicateField (strBytes "links"))
      | none =>
        match decodeOption decodeStringMap v with
        | .error err => .error err
        | .ok x => jobFieldLoop rest { s with links := some x }
    else jobFieldLoop rest s

/-- The serde `Deserialize` of `Job`: `id` is required, every other field
defaults. -/
def Job.deserialize : Json → Except SerdeError Job
  | .obj fields =>
    (match jobFieldLoop fields JobSlots.empty with
     | .error err => .error err
     | .ok s =>
       match s.id with
       | none => .error (.missingField (strBytes "id"))
       | some id =>
         .ok { id := id
               tag := s.tag.getD none
               status := s.status.getD none
               tasks := s.tasks.getD []
               links := s.links.getD none })
  | _ => .error .invalidType

/-! ## `src/webhook.rs`: `EventKind`, `Event`, `ParseError`, `Event::from_json` -/

/-- The `EventKind` enum of `src/webhook.rs`, with its serde rename literals
`job.created`, `job.finished`, `job.failed`. -/
inductive EventKind
  | JobCreated
  | JobFinished
  | JobFailed
deriving DecidableEq

/-- The string-to-variant map of `EventKind`'s derived `Deserialize`: the
three exact literals, case-sensitively; anything else is an unknown
variant. -/
def EventKind.fromStr (s : List Nat) : Except SerdeError EventKind :=
  if s = strBytes "job.created" then .ok .JobCreated
  else if s = strBytes "job.finished" then .ok .JobFinished
  else if s = strBytes "job.failed" then .ok .JobFailed
  else .error (.unknownVariant s)

/-- The serde `Deserialize` of `EventKind`: a JSON string decoded through
`EventKind.fromStr`; a non-string is a type error. -/
def EventKind.deserialize : Json → Except SerdeError EventKind
  | .str s => EventKind.fromStr s
  | _ => .error .invalidType

/-- The local `EventJson` struct of `Event::from_json`:
`{ event: EventKind, job: Job }`, both fields required. -/
structure EventJson where
  event : EventKind
  job : Job

/-- The slots filled while walking an `EventJson` object. -/
structure EventJsonSlots where
  event : Option EventKind
  job : Option Job

/-- Walk the fields of an `EventJson` object. -/
def eventJsonFieldLoop : List (List Nat × Json) → EventJsonSlots → Except SerdeError EventJsonSlots
  | [], s => .ok s
  | (k, v) :: rest, s =>
    if k = strBytes "event" then
      match s.event with
      | some _ => .error (.duplicateField (strBytes "event"))
      | none =>
        match EventKind.deserialize v with
        | .error err => .error err
        | .ok x => eventJsonFieldLoop rest { s with event := some x }
    else if k = strBytes "job" then
      match s.job with
      | some _ => .error (.duplicateField (strBytes "job"))
      | none =>
        match Job.deserialize v with
        | .error err => .error err
        | .ok x => eventJsonFieldLoop rest { s with job := some x }
    else eventJsonFieldLoop rest s

/-- The serde `Deserialize` of `EventJson`: `event` and `job` both
required, in declaration order. -/
def EventJson.deserialize : Json → Except SerdeError EventJson
  | .obj fields =>
    (match eventJsonFieldLoop fields ⟨none, none⟩ with
     | .error err => .error err
     | .ok s =>
       match s.event with
       | none => .error (.missingField (strBytes "event"))
       | some event =>
         match s.job with
         | none => .error (.missingField (strBytes "job"))
         | some job => .ok ⟨event, job⟩)
  | _ => .error .invalidType

/-- Model of `serde_json::from_slice::<EventJson>`: parse the payload bytes as JSON
and decode the event shape. -/
def eventJsonFromSlice (input : List Nat) : Except SerdeError EventJson :=
  match jsonParse input with
  | .error err => .error err
  | .ok v => EventJson.deserialize v

/-- The `ParseError` enum of `src/webhook.rs`: the error of `Event::from_json`. -/
inductive ParseError
  | SignatureMismatch
  | HexDecodeSignature (e : FromHexError)
  | Json (e : SerdeError)

/-- The `Event` struct of `src/webhook.rs`: a signed webhook event.  The `signature`
field stores the *computed* HMAC (32 bytes); outside the module the Rust
struct can only be built by `Event::from_json`, and `signature` is read
through the `Event::signature` accessor, which in this embedding is the
field projection. -/
structure Event where
  event : EventKind
  job : Job
  signature : List Nat

/-- Model of `Event::from_json`: parse an event and verify the signature.

The embedding returns `none` where the Rust code would panic (the only
panic site is the `unwrap` on `Hmac::new_from_slice`) and `some r` where it
returns `r`.  Steps, in source order: hex-decode the signature header into
a 32-byte buffer (`HexDecodeSignature` on failure), compute
HMAC-SHA256(signing_secret, json), compare (`SignatureMismatch` when they
differ), and only then deserialize the payload (`Json` on failure),
returning the parsed event with the computed signature. -/
def Event.from_json (json : List Nat) (signature : List Nat) (signing_secret : List Nat) :
    Option (Except ParseError Event) :=
  match hexDecodeToSlice signature 32 with
  | .error e => some (.error (.HexDecodeSignature e))
  | .ok expected_signature =>
    match hmacNewFromSlice signing_secret with
    | .error _ => none
    | .ok keyBlock =>
      let actual_signature := hmacFinalize keyBlock json
      if actual_signature ≠ expected_signature then some (.error .SignatureMismatch)
      else
        match eventJsonFromSlice json with
        | .error e => some (.error (.Json e))
        | .ok ej => some (.ok ⟨ej.event, ej.job, actual_signature⟩)

/-! ## `src/job.rs`: `JobsOutput` and its conversion to `Job` -/

/-- The `JobsOutput` struct of `src/job.rs`: the `data`-wrapped job returned by the
jobs API. -/
structure JobsOutput where
  data : Job

/-- One iteration of the task loop in `impl From<JobsOutput> for Job`: a
present `job_id` must equal the parent's id (`assert_eq!`, i.e. `none` =
panic, when it differs), an absent one is filled in from the parent. -/
def fillTask (jobId : List Nat) (t : TaskStatus) : Option TaskStatus :=
  match t.job_id with
  | some tjid => if tjid = jobId then some t else none
  | none => some { t with job_id := some jobId }

/-- The task loop of `impl From<JobsOutput> for Job` over the whole list. -/
def fillTasks (jobId : List Nat) : List TaskStatus → Option (List TaskStatus)
  | [] => some []
  | t :: ts =>
    match fillTask jobId t with
    | none => none
    | some t1 =>
      match fillTasks jobId ts with
      | none => none
      | some ts1 => some (t1 :: ts1)

/-- Model of `impl From<JobsOutput> for Job`: ensure every task's `job_id` is filled
out; `none` models the `assert_eq!` panic. -/
def jobFromJobsOutput (output : JobsOutput) : Option Job :=
  match fillTasks output.data.id output.data.tasks with
  | none => none
  | some ts => some { output.data with tasks := ts }

/-! ## Concrete inputs used by counterexamples and witnesses -/

/-- A minimal well-formed webhook payload whose single task omits
`job_id`. -/
def pMin : List Nat := strBytes
  "\x7b\"event\":\"job.created\",\"job\":\x7b\"id\":\"j\",\"tasks\":[\x7b\"id\":\"t\",\"operation\":\"o\",\"status\":\"finished\"\x7d]\x7d\x7d"

/-- A payload that is not valid JSON. -/
def pX : List Nat := strBytes "x"

/-- Cross-check against a reference implementation: HMAC-SHA256 of `pMin`
under key `[1]` (tag bytes in decimal; the hex reading is
e1811cd9...6a278456). -/
example : hmacSha256 [1] pMin =
    [225, 129, 28, 217, 176, 37, 97, 118, 227, 22, 210, 63, 30, 206, 60, 104,
     23, 233, 7, 142, 67, 189, 110, 246, 42, 105, 150, 234, 106, 39, 132, 86] := by decide

/-- The task `pMin` describes, as parsed: `job_id` is `none`. -/
def taskMin : TaskStatus :=
  { id := strBytes "t", job_id := none, name := none, operation := strBytes "o",
    status := .Finished, status_message := none, error_code := none, credits := none,
    retry_of_task_id := none, retries := [], engine := none, engine_version := none,
    payload := .null, result := none, links := none }

/-- The job `pMin` describes, as parsed. -/
def jobMin : Job :=
  { id := strBytes "j", tag := none, status := none, tasks := [taskMin], links := none }

/-- The event shape `pMin` describes, as parsed. -/
def ejMin : EventJson := ⟨.JobCreated, jobMin⟩

example : eventJsonFromSlice pMin = .ok ejMin := rfl
example : eventJsonFromSlice pX = .error .synErr := rfl

/-- End-to-end: `from_json` with the correct signature accepts `pMin` and
returns the parsed event carrying the computed signature. -/
example : Event.from_json pMin (hexEncode (hmacSha256 [1] pMin)) [1] =
    some (.ok ⟨.JobCreated, jobMin, hmacSha256 [1] pMin⟩) := rfl

/-! ## Supporting lemmas -/

/-- A SHA-256 digest has exactly 32 bytes. -/
theorem sha256_length (msg : List Nat) : (sha256 msg).length = 32 := by
  simp [sha256, wordBytes]

/-- Every byte of a SHA-256 digest is below 256. -/
theorem wordBytes_lt (w : Nat) : ∀ x ∈ wordBytes w, x < 256 := by
  intro x hx
  simp [wordBytes] at hx
  rcases hx with h | h | h | h <;> omega

/-- Every byte of a SHA-256 digest is below 256. -/
theorem sha256_mem_lt (msg : List Nat) : ∀ x ∈ sha256 msg, x < 256 := by
  intro x hx
  simp only [sha256, List.mem_append] at hx
  rcases hx with ((((((h | h) | h) | h) | h) | h) | h) | h <;> exact wordBytes_lt _ _ h

/-- An HMAC-SHA256 tag has exactly 32 bytes. -/
theorem hmacSha256_length (k p : List Nat) : (hmacSha256 k p).length = 32 :=
  sha256_length _

/-- Every byte of an HMAC-SHA256 tag is below 256. -/
theorem hmacSha256_mem_lt (k p : List Nat) : ∀ x ∈ hmacSha256 k p, x < 256 :=
  sha256_mem_lt _

/-- Hex encoding doubles the length. -/
theorem hexEncode_length (bs : List Nat) : (hexEncode bs).length = 2 * bs.length := by
  induction bs with
  | nil => rfl
  | cons b bs ih => simp [hexEncode, ih]; omega

/-- Decoding the digit emitted for a nibble gives the nibble back. -/
theorem hexVal_hexDigitLower (n idx : Nat) (h : n < 16) :
    hexVal (hexDigitLower n) idx = .ok n := by
  unfold hexVal hexDigitLower
  split_ifs <;> first
  | (exfalso; omega)
  | (congr 1; omega)

/-- The digit-pair loop inverts hex encoding, byte by byte (modulo 256,
matching the `u8` truncation of the Rust byte type). -/
theorem hexPairs_hexEncode (bs : List Nat) (idx : Nat) :
    hexPairs (hexEncode bs) idx = .ok (bs.map (· % 256)) := by
  induction bs generalizing idx with
  | nil => rfl
  | cons b bs ih =>
    have h1 : hexVal (hexDigitLower (b / 16 % 16)) idx = .ok (b / 16 % 16) :=
      hexVal_hexDigitLower _ _ (Nat.mod_lt _ (by omega))
    have h2 : hexVal (hexDigitLower (b % 16)) (idx + 1) = .ok (b % 16) :=
      hexVal_hexDigitLower _ _ (Nat.mod_lt _ (by omega))
    have h3 : b / 16 % 16 * 16 + b % 16 = b % 256 := by omega
    simp [hexEncode, hexPairs, h1, h2, ih, h3]

/-- Decoding with `decode_to_slice` into a 32-byte buffer inverts `encode` on a 32-byte
input. -/
theorem hexDecode_hexEncode (bs : List Nat) (h : bs.length = 32) :
    hexDecodeToSlice (hexEncode bs) 32 = .ok (bs.map (· % 256)) := by
  unfold hexDecodeToSlice
  rw [hexEncode_length, h]
  simpa using hexPairs_hexEncode bs 0

/-- Reducing already-reduced bytes changes nothing. -/
theorem map_mod_eq_self (bs : List Nat) (h : ∀ x ∈ bs, x < 256) :
    bs.map (· % 256) = bs := by
  induction bs with
  | nil => rfl
  | cons b bs ih =>
    simp only [List.map_cons]
    refine congrArg₂ _ (Nat.mod_eq_of_lt (h b (by simp))) ?_
    exact ih fun x hx => h x (by simp [hx])

/-- Reading with `getD` after `set` at the written index, within bounds. -/
theorem getD_set_self (l : List Nat) (i v : Nat) (h : i < l.length) :
    (l.set i v).getD i 0 = v := by
  induction l generalizing i with
  | nil => simp at h
  | cons a l ih =>
    cases i with
    | zero => rfl
    | succ j => simpa [List.getD] using ih j (by simpa using h)

/-- Calling `from_json` with the hex encoding of the correct HMAC reaches
the JSON-decoding step, and returns whatever it gives, the computed
signature attached on success. -/
theorem from_json_good_sig (p k : List Nat) :
    Event.from_json p (hexEncode (hmacSha256 k p)) k =
      some (match eventJsonFromSlice p with
            | .error e => .error (.Json e)
            | .ok ej => .ok ⟨ej.event, ej.job, hmacSha256 k p⟩) := by
  have hdec : hexDecodeToSlice (hexEncode (hmacSha256 k p)) 32 = .ok (hmacSha256 k p) := by
    rw [hexDecode_hexEncode _ (hmacSha256_length k p),
        map_mod_eq_self _ (hmacSha256_mem_lt k p)]
  unfold Event.from_json
  rw [hdec]
  cases hp : eventJsonFromSlice p with
  | error e => simp [hmacNewFromSlice, hmacSha256, hp]
  | ok ej => simp [hmacNewFromSlice, hmacSha256, hp]

/-- Altering one byte of the correct signature (to a different value below
256) before hex-encoding makes `from_json` fail with `SignatureMismatch`. -/
theorem from_json_set_mismatch (p k : List Nat) (i v : Nat)
    (hi : i < 32) (hv : v < 256) (hne : v ≠ (hmacSha256 k p).getD i 0) :
    Event.from_json p (hexEncode ((hmacSha256 k p).set i v)) k =
      some (.error .SignatureMismatch) := by
  have hlen : ((hmacSha256 k p).set i v).length = 32 := by
    rw [List.length_set]; exact hmacSha256_length k p
  have hlt : ∀ x ∈ (hmacSha256 k p).set i v, x < 256 := by
    intro x hx
    rcases List.mem_or_eq_of_mem_set hx with h | h
    · exact hmacSha256_mem_lt k p x h
    · omega
  have hdec : hexDecodeToSlice (hexEncode ((hmacSha256 k p).set i v)) 32 =
      .ok ((hmacSha256 k p).set i v) := by
    rw [hexDecode_hexEncode _ hlen, map_mod_eq_self _ hlt]
  have hneq : hmacSha256 k p ≠ (hmacSha256 k p).set i v := by
    intro h
    have hg : ((hmacSha256 k p).set i v).getD i 0 = v :=
      getD_set_self _ i v (by rw [hmacSha256_length]; exact hi)
    rw [← h] at hg
    exact hne hg.symm
  unfold Event.from_json
  rw [hdec]
  simp only [hmacNewFromSlice]
  rw [if_pos]
  show hmacSha256 k p ≠ _
  exact hneq

/-- The task loop of the `JobsOutput` conversion panics exactly when some
task carries a `job_id` different from the parent's. -/
theorem fillTasks_eq_none_iff (jid : List Nat) (ts : List TaskStatus) :
    fillTasks jid ts = none ↔ ∃ t ∈ ts, ∃ x, t.job_id = some x ∧ x ≠ jid := by
  induction ts with
  | nil => simp [fillTasks]
  | cons t ts ih =>
    simp only [fillTasks]
    cases ht : t.job_id with
    | none =>
      simp only [fillTask, ht]
      cases hrest : fillTasks jid ts with
      | none =>
        simp only [true_iff]
        obtain ⟨u, hu, x, hx⟩ := ih.mp hrest
        exact ⟨u, by simp [hu], x, hx⟩
      | some ts1 =>
        simp only [iff_false, reduceCtorEq, false_iff]
        rintro ⟨u, hu, x, hx1, hx2⟩
        rcases List.mem_cons.mp hu with rfl | hu2
        · rw [ht] at hx1; exact Option.noConfusion hx1
        · exact (ih.not.mp (by simp [hrest])) ⟨u, hu2, x, hx1, hx2⟩
    | some x =>
      simp only [fillTask, ht]
      by_cases hx : x = jid
      · rw [if_pos hx]
        cases hrest : fillTasks jid ts with
        | none =>
          simp only [true_iff]
          obtain ⟨u, hu, y, hy⟩ := ih.mp hrest
          exact ⟨u, by simp [hu], y, hy⟩
        | some ts1 =>
          simp only [iff_false, reduceCtorEq, false_iff]
          rintro ⟨u, hu, y, hy1, hy2⟩
          rcases List.mem_cons.mp hu with rfl | hu2
          · rw [ht] at hy1
            exact hy2 (by cases hy1; exact hx)
          · exact (ih.not.mp (by simp [hrest])) ⟨u, hu2, y, hy1, hy2⟩
      · rw [if_neg hx]
        simp only [true_iff]
        exact ⟨t, by simp, x, ht, hx⟩

/-- When the task loop of the `JobsOutput` conversion returns, every task
has its `job_id` set to the parent's id and nothing else changed. -/
theorem fillTasks_eq_some (jid : List Nat) (ts ts1 : List TaskStatus)
    (h : fillTasks jid ts = some ts1) :
    ts1 = ts.map (fun t => { t with job_id := some jid }) := by
  induction ts generalizing ts1 with
  | nil =>
    simp only [fillTasks, Option.some.injEq] at h
    simp [← h]
  | cons t ts ih =>
    simp only [fillTasks] at h
    cases hft : fillTask jid t with
    | none => rw [hft] at h; exact Option.noConfusion h
    | some t1 =>
      rw [hft] at h
      cases hrest : fillTasks jid ts with
      | none => rw [hrest] at h; exact Option.noConfusion h
      | some ts2 =>
        rw [hrest] at h
        cases h
        have ht1 : t1 = { t with job_id := some jid } := by
          cases htj : t.job_id with
          | none =>
            simp only [fillTask, htj] at hft
            cases hft
            rfl
          | some x =>
            simp only [fillTask, htj] at hft
            by_cases hx : x = jid
            · rw [if_pos hx] at hft
              cases hft
              cases t
              simp only at htj
              simp [htj, hx]
            · rw [if_neg hx] at hft
              exact Option.noConfusion hft
        rw [List.map_cons, ht1, ih ts2 hrest]

/-- Inversion: a successful `from_json` comes from a successful event
decode of the payload, and returns exactly the decoded event pair with the
computed HMAC attached. -/
theorem from_json_ok_inv (p s k : List Nat) (ev : Event)
    (h : Event.from_json p s k = some (.ok ev)) :
    ∃ ej, eventJsonFromSlice p = .ok ej ∧ ev = ⟨ej.event, ej.job, hmacSha256 k p⟩ := by
  unfold Event.from_json at h
  cases hdec : hexDecodeToSlice s 32 with
  | error e =>
    rw [hdec] at h
    simp at h
  | ok expected =>
    rw [hdec] at h
    simp only [hmacNewFromSlice] at h
    split at h
    · simp at h
    · cases hj : eventJsonFromSlice p with
      | error e => rw [hj] at h; simp at h
      | ok ej =>
        rw [hj] at h
        simp only [Option.some.injEq, Except.ok.injEq] at h
        exact ⟨ej, rfl, h.symm⟩

/-! ## The claims -/

/-- Claim C1, counterexample: the claim quantifies over *every* payload,
but a correctly signed payload that is not valid JSON (here the single
byte `"x"`) makes `Event::from_json` return `Err(Json(..))`, not `Ok`. -/
theorem claim_C1_cex :
    ¬ ∃ ev : Event, Event.from_json pX (hexEncode (hmacSha256 [1] pX)) [1] = some (.ok ev) := by
  rintro ⟨ev, h⟩
  have hres : Event.from_json pX (hexEncode (hmacSha256 [1] pX)) [1] =
      some (.error (.Json .synErr)) := rfl
  rw [hres] at h
  simp at h

/-- Claim C1 (amended): for every payload `p` that decodes as event JSON
and every secret `k`, `Event::from_json(p, hex(HMAC-SHA256(k, p)), k)`
returns `Ok` with an `Event` whose `signature` accessor returns exactly
the 32 computed HMAC bytes (not a value derived from the caller's hex
string). -/
theorem claim_C1 (p k : List Nat) (ej : EventJson)
    (hp : eventJsonFromSlice p = .ok ej) :
    Event.from_json p (hexEncode (hmacSha256 k p)) k =
      some (.ok ⟨ej.event, ej.job, hmacSha256 k p⟩) ∧
    Event.signature ⟨ej.event, ej.job, hmacSha256 k p⟩ = hmacSha256 k p ∧
    (hmacSha256 k p).length = 32 := by
  refine ⟨?_, rfl, hmacSha256_length k p⟩
  rw [from_json_good_sig, hp]

/-- Claim C1, witness: the amended claim at the concrete payload `pMin`
and secret `[1]`. -/
theorem claim_C1_witness :
    Event.from_json pMin (hexEncode (hmacSha256 [1] pMin)) [1] =
      some (.ok ⟨EventKind.JobCreated, jobMin, hmacSha256 [1] pMin⟩) :=
  (claim_C1 pMin [1] ejMin rfl).1

/-- Claim C2, counterexample: `Event::from_json` does *not* backfill task
`job_id`: the correctly signed payload `pMin` omits its task's `job_id`,
and the accepted event's task still has `job_id = None`, not
`Some(job.id)`. -/
theorem claim_C2_cex :
    ¬ ∀ ev : Event,
        Event.from_json pMin (hexEncode (hmacSha256 [1] pMin)) [1] = some (.ok ev) →
        ∀ t ∈ ev.job.tasks, t.job_id = some ev.job.id := by
  intro hall
  have h := hall ⟨.JobCreated, jobMin, hmacSha256 [1] pMin⟩ rfl taskMin (by simp [jobMin])
  simp [taskMin] at h

/-- Claim C2 (amended): every event accepted by `Event::from_json` carries
the payload's job exactly as deserialized — each task's `job_id` is
exactly what the payload supplied (`None` when omitted); the backfill of
`impl From<JobsOutput> for Job` is not applied on the webhook path. -/
theorem claim_C2 (p s k : List Nat) (ev : Event)
    (h : Event.from_json p s k = some (.ok ev)) :
    ∃ ej, eventJsonFromSlice p = .ok ej ∧ ev.job = ej.job ∧
      ev.job.tasks.map (fun t => t.job_id) = ej.job.tasks.map (fun t => t.job_id) := by
  obtain ⟨ej, hp, rfl⟩ := from_json_ok_inv p s k ev h
  exact ⟨ej, hp, rfl, rfl⟩

/-- Claim C2, witness: the amended claim at the concrete accepted event of
payload `pMin` under secret `[1]`. -/
theorem claim_C2_witness :
    ∃ ej, eventJsonFromSlice pMin = .ok ej ∧
      (⟨EventKind.JobCreated, jobMin, hmacSha256 [1] pMin⟩ : Event).job = ej.job ∧
      (⟨EventKind.JobCreated, jobMin, hmacSha256 [1] pMin⟩ : Event).job.tasks.map
          (fun t => t.job_id) =
        ej.job.tasks.map (fun t => t.job_id) :=
  claim_C2 pMin (hexEncode (hmacSha256 [1] pMin)) [1] _ rfl

/-- Claim C4, counterexample: changing exactly one byte of the correct
signature's hex encoding need not produce `SignatureMismatch` — the hex
string of HMAC([1], pMin) starts with `e` (byte 101); changing that one
byte to `E` (byte 69) decodes to the same signature and verification
returns `Ok`. -/
theorem claim_C4_cex :
    (hexEncode (hmacSha256 [1] pMin)).getD 0 0 = 101 ∧ (101 : Nat) ≠ 69 ∧
    Event.from_json pMin ((hexEncode (hmacSha256 [1] pMin)).set 0 69) [1] =
      some (.ok ⟨EventKind.JobCreated, jobMin, hmacSha256 [1] pMin⟩) :=
  ⟨by decide, by decide, rfl⟩

/-- Claim C4 (amended): changing one byte of the 32-byte signature to any
different value below 256 *before* hex-encoding (as in the claim's own
example, setting byte index 3 to 0) always makes `Event::from_json` return
`Err(SignatureMismatch)`; mutations of the hex *string* can instead yield
`HexDecodeSignature` (a non-hex byte) or even `Ok` (a case change). -/
theorem claim_C4 (p k : List Nat) (i v : Nat) (hi : i < 32) (hv : v < 256)
    (hne : v ≠ (hmacSha256 k p).getD i 0) :
    Event.from_json p (hexEncode ((hmacSha256 k p).set i v)) k =
      some (.error .SignatureMismatch) :=
  from_json_set_mismatch p k i v hi hv hne

/-- Claim C4, witness: the amended claim at payload `pMin`, secret `[1]`,
byte index 3 set to 0 (the claim's own example mutation). -/
theorem claim_C4_witness :
    (0 : Nat) ≠ (hmacSha256 [1] pMin).getD 3 0 ∧
    Event.from_json pMin (hexEncode ((hmacSha256 [1] pMin).set 3 0)) [1] =
      some (.error .SignatureMismatch) :=
  ⟨by decide, claim_C4 pMin [1] 3 0 (by omega) (by omega) (by decide)⟩

/-- Claim C5: whenever the claimed signature string fails hex decoding
into a 32-byte buffer (bad digit, odd length, or wrong length), then for
*every* payload and secret `Event::from_json` returns
`Err(HexDecodeSignature(cause))` with the underlying decode error — the
result does not depend on the payload or the secret, so the rejection
holds even for an empty or arbitrary payload. -/
theorem claim_C5 (sig : List Nat) (e : FromHexError)
    (h : hexDecodeToSlice sig 32 = .error e) (p k : List Nat) :
    Event.from_json p sig k = some (.error (.HexDecodeSignature e)) := by
  unfold Event.from_json
  rw [h]

/-- Claim C5, witness: an odd-length signature string is rejected with the
carried cause even for the empty payload and empty secret. -/
theorem claim_C5_witness :
    Event.from_json [] (strBytes "abc") [] =
      some (.error (.HexDecodeSignature .OddLength)) :=
  claim_C5 (strBytes "abc") .OddLength rfl [] []

/-- Claim C6: a correctly signed payload whose body fails event-JSON
decoding yields `Err(Json(cause))`; and whenever the decoded claimed
signature differs from the computed HMAC, the result is
`Err(SignatureMismatch)` regardless of the payload's JSON validity — so
JSON deserialization is reached only after the comparison succeeds, and a
partial event is never returned. -/
theorem claim_C6 (p k : List Nat) (e : SerdeError)
    (hp : eventJsonFromSlice p = .error e) :
    Event.from_json p (hexEncode (hmacSha256 k p)) k = some (.error (.Json e)) ∧
    (∀ s expected, hexDecodeToSlice s 32 = .ok expected →
      expected ≠ hmacSha256 k p →
      Event.from_json p s k = some (.error .SignatureMismatch)) := by
  constructor
  · rw [from_json_good_sig, hp]
  · intro s expected hdec hne
    unfold Event.from_json
    rw [hdec]
    simp only [hmacNewFromSlice]
    rw [if_pos (show hmacFinalize (hmacKeyBlock k) p ≠ expected from fun hh => hne hh.symm)]

/-- Claim C6, witness: the correctly signed non-JSON payload `pX` is
rejected with `Json`, not `SignatureMismatch`. -/
theorem claim_C6_witness :
    Event.from_json pX (hexEncode (hmacSha256 [1] pX)) [1] =
      some (.error (.Json .synErr)) :=
  (claim_C6 pX [1] .synErr rfl).1

/-- Claim C7: `EventKind` deserialization succeeds exactly for the three
literals `job.created`, `job.finished`, `job.failed`, mapping them to
`JobCreated`, `JobFinished`, `JobFailed`; every other string fails with an
unknown-variant error — there is no default variant. -/
theorem claim_C7 :
    EventKind.fromStr (strBytes "job.created") = .ok .JobCreated ∧
    EventKind.fromStr (strBytes "job.finished") = .ok .JobFinished ∧
    EventKind.fromStr (strBytes "job.failed") = .ok .JobFailed ∧
    ∀ s : List Nat, s ≠ strBytes "job.created" → s ≠ strBytes "job.finished" →
      s ≠ strBytes "job.failed" → EventKind.fromStr s = .error (.unknownVariant s) := by
  refine ⟨rfl, rfl, rfl, fun s h1 h2 h3 => ?_⟩
  unfold EventKind.fromStr
  rw [if_neg h1, if_neg h2, if_neg h3]

/-- Claim C7, witness: the unknown tag `job.cancelled` and the case
variant `Job.Created` both fail to parse. -/
theorem claim_C7_witness :
    EventKind.fromStr (strBytes "job.cancelled") =
      .error (.unknownVariant (strBytes "job.cancelled")) ∧
    EventKind.fromStr (strBytes "Job.Created") =
      .error (.unknownVariant (strBytes "Job.Created")) :=
  ⟨claim_C7.2.2.2 _ (by decide) (by decide) (by decide),
   claim_C7.2.2.2 _ (by decide) (by decide) (by decide)⟩

/-- Claim C8: in the task status structure, `error_code` and `credits` are
both deserialized from the same renamed JSON key `code` — the same key,
not distinct keys such as `code` and `credits`. -/
theorem claim_C8 :
    TaskStatus.jsonKey .error_code = strBytes "code" ∧
    TaskStatus.jsonKey .credits = strBytes "code" ∧
    TaskStatus.jsonKey .credits = TaskStatus.jsonKey .error_code ∧
    TaskStatus.jsonKey .credits ≠ strBytes "credits" :=
  ⟨rfl, rfl, rfl, by decide⟩

/-- Claim C9: `Hmac::<Sha256>::new_from_slice` succeeds for a secret of
any byte length, so the `unwrap` after it is unreachable and
`Event::from_json` never panics: every call returns `some` result (an
`Ok` event or one of the three `ParseError` variants). -/
theorem claim_C9 :
    (∀ secret, hmacNewFromSlice secret = .ok (hmacKeyBlock secret)) ∧
    (∀ json sig secret, (Event.from_json json sig secret).isSome = true) := by
  refine ⟨fun _ => rfl, fun json sig secret => ?_⟩
  unfold Event.from_json
  cases hexDecodeToSlice sig 32 with
  | error e => rfl
  | ok expected =>
    simp only [hmacNewFromSlice]
    by_cases hcmp : hmacFinalize (hmacKeyBlock secret) json ≠ expected
    · rw [if_pos hcmp]; rfl
    · rw [if_neg hcmp]
      cases eventJsonFromSlice json <;> rfl

/-- Claim C10: converting a `JobsOutput` into a `Job` panics (the
`assert_eq!`, modelled as `none`) exactly when some task carries a
`job_id` that is present and different from the parent job's id; otherwise
it returns the job with every task's `job_id` set to `Some` of the parent
job's id and all other fields unchanged. -/
theorem claim_C10 (output : JobsOutput) :
    (jobFromJobsOutput output = none ↔
      ∃ t ∈ output.data.tasks, ∃ x, t.job_id = some x ∧ x ≠ output.data.id) ∧
    (∀ j, jobFromJobsOutput output = some j →
      j.id = output.data.id ∧ j.tag = output.data.tag ∧ j.status = output.data.status ∧
      j.links = output.data.links ∧
      j.tasks = output.data.tasks.map (fun t => { t with job_id := some output.data.id })) := by
  constructor
  · unfold jobFromJobsOutput
    cases hft : fillTasks output.data.id output.data.tasks with
    | none => simpa using (fillTasks_eq_none_iff _ _).mp hft
    | some ts =>
      refine iff_of_false (by simp) ?_
      intro hex
      have hnone := (fillTasks_eq_none_iff output.data.id output.data.tasks).mpr hex
      rw [hft] at hnone
      exact Option.noConfusion hnone
  · intro j hj
    unfold jobFromJobsOutput at hj
    cases hft : fillTasks output.data.id output.data.tasks with
    | none => rw [hft] at hj; exact Option.noConfusion hj
    | some ts =>
      rw [hft] at hj
      simp only [Option.some.injEq] at hj
      subst hj
      refine ⟨rfl, rfl, rfl, rfl, ?_⟩
      simpa using fillTasks_eq_some _ _ _ hft

/-- The job `jobMin` after the `JobsOutput` conversion fills in the task's
`job_id`. -/
def jobFilled : Job :=
  { jobMin with tasks := [{ taskMin with job_id := some (strBytes "j") }] }

/-- Claim C10, witness: the conversion at the concrete job `jobMin`
(single task with absent `job_id`) returns it with the task's `job_id`
backfilled. -/
theorem claim_C10_witness :
    jobFilled.id = jobMin.id ∧ jobFilled.tag = jobMin.tag ∧
    jobFilled.status = jobMin.status ∧ jobFilled.links = jobMin.links ∧
    jobFilled.tasks = jobMin.tasks.map (fun t => { t with job_id := some jobMin.id }) :=
  (claim_C10 ⟨jobMin⟩).2 jobFilled rfl
